import Mathlib

/-!
Verification of the MCP message-bus core of the agentic-rag-chatbot
repository: the `MCPMessage` envelope, the `MCPBroker` (subscription,
publish, history) from `src/models/mcp.py`, and the `BaseAgent` dispatch
layer (`register_handler`, `_handle_message`, `send_message`) from
`src/agents/base_agent.py`, shallowly embedded in Lean 4.

Modelling conventions:
- Python `dict` (string keys, insertion-ordered) is an association list
  with lookup `dictGet` and insertion-order-preserving update `dictSet`.
- Handler callbacks are opaque labels (`Handler := Nat`); their behaviour
  is an environment `hbeh : Handler → MCPMessage → Option String`, where
  `some e` means the callback raises exception `e` and `none` means it
  returns normally.  Dispatch records the exact sequence of invoked
  callbacks, so invocation counts and order are observable.
- `uuid.uuid4()` is modelled as drawing from an injective supply of
  non-empty strings indexed by a draw counter that is threaded through
  message creation.
- Python raising is `Except String`; log lines are returned as data.
-/

/-- The `Dict[str, Any]` payload of a message; values are modelled as
strings, the bus never inspects them. -/
abbrev Payload := List (String × String)

/-- `MCPMessage` from `src/models/mcp.py`: the envelope carried on the
bus.  `Config.frozen = True` makes instances immutable; see
`MCPMessage.setattr` below. -/
structure MCPMessage where
  sender : String
  receiver : String
  type : String
  trace_id : String
  payload : Payload
deriving DecidableEq, Repr

/-- Pydantic `frozen = True` on `MCPMessage.Config`: any attribute
assignment on a constructed instance raises; modelled as a setter that
always returns an error and never yields an updated message. -/
def MCPMessage.setattr (_m : MCPMessage) (field value : String) :
    Except String MCPMessage :=
  .error ("Instance is frozen: cannot set " ++ field ++ " to " ++ value)

/-- Opaque label identifying a callback object. -/
abbrev Handler := Nat

/-- Behaviour environment for callbacks: `some e` means the callback
raises exception `e` on that message, `none` means it returns normally. -/
abbrev HandlerBehavior := Handler → MCPMessage → Option String

/-- Lookup in an insertion-ordered string-keyed dict (Python `d[k]` /
`k in d`). -/
def dictGet {α : Type} (d : List (String × α)) (k : String) : Option α :=
  match d with
  | [] => none
  | (k', v) :: rest => if k' = k then some v else dictGet rest k

/-- Update in an insertion-ordered string-keyed dict (Python
`d[k] = v`): existing keys keep their position, a new key goes to the
end. -/
def dictSet {α : Type} (d : List (String × α)) (k : String) (v : α) :
    List (String × α) :=
  match d with
  | [] => [(k, v)]
  | (k', v') :: rest =>
      if k' = k then (k, v) :: rest else (k', v') :: dictSet rest k v

/-- `MCPBroker` state from `src/models/mcp.py`: `_subscribers` maps an
agent id to its ordered callback list, `_message_history` is the
append-only log. -/
structure MCPBroker where
  subscribers : List (String × List Handler)
  message_history : List MCPMessage
deriving Repr

/-- A broker as built by `MCPBroker.__init__`: no subscribers, empty
history. -/
def MCPBroker.init : MCPBroker := ⟨[], []⟩

/-- `MCPBroker.subscribe`: ensure the agent id has an entry, then append
the callback to its list. -/
def MCPBroker.subscribe (b : MCPBroker) (agent_id : String)
    (callback : Handler) : MCPBroker :=
  let cur :=
    match dictGet b.subscribers agent_id with
    | some l => l
    | none => []
  { b with subscribers := dictSet b.subscribers agent_id (cur ++ [callback]) }

/-- Invoke callbacks left to right; stop at the first raising callback.
Returns the sequence of callbacks actually invoked and the exception, if
any. -/
def invokeAll (hbeh : HandlerBehavior) (m : MCPMessage) :
    List Handler → List Handler × Option String
  | [] => ([], none)
  | cb :: rest =>
      match hbeh cb m with
      | some e => ([cb], some e)
      | none =>
          let (tr, r) := invokeAll hbeh m rest
          (cb :: tr, r)

/-- Outcome of `MCPBroker.publish`: which callbacks ran, what warnings
were logged, and the returned trace id or the propagated exception. -/
structure PublishResult where
  invoked : List Handler
  warnings : List String
  result : Except String String
deriving Repr

/-- `MCPBroker.publish`: append the message to the history, then, if the
receiver is a key of `_subscribers`, invoke each of its callbacks in
order (a raising callback propagates, skipping the rest); otherwise log
a warning.  On normal return the message's `trace_id` is returned. -/
def MCPBroker.publish (b : MCPBroker) (hbeh : HandlerBehavior)
    (m : MCPMessage) : MCPBroker × PublishResult :=
  let b' := { b with message_history := b.message_history ++ [m] }
  match dictGet b.subscribers m.receiver with
  | some cbs =>
      let (tr, r) := invokeAll hbeh m cbs
      match r with
      | some e => (b', ⟨tr, [], .error e⟩)
      | none => (b', ⟨tr, [], .ok m.trace_id⟩)
  | none =>
      (b', ⟨[], ["No subscribers found for receiver " ++ m.receiver],
            .ok m.trace_id⟩)

/-- `MCPBroker.get_message_history`: the history, filtered by trace id
when one is given.  Python's `if trace_id:` treats the empty string like
`None`, so filtering by `""` returns the whole history. -/
def MCPBroker.get_message_history (b : MCPBroker)
    (trace_id : Option String) : List MCPMessage :=
  match trace_id with
  | some tid =>
      if tid = "" then b.message_history
      else b.message_history.filter (fun msg => msg.trace_id = tid)
  | none => b.message_history

/-- Modelled from the spec: `uuid.uuid4()` (Python standard library, not
under `src/`) returns a fresh, non-empty, unique identifier on each
call; modelled as an injective supply of non-empty strings indexed by a
draw counter. -/
def uuid4 (n : Nat) : String := String.mk ('u' :: List.replicate n 'x')

/-- `create_mcp_message` from `src/models/mcp.py`, with the uuid draw
counter threaded explicitly.  Python's `if trace_id:` treats both `None`
and the empty string as "no trace id supplied", generating a fresh one. -/
def create_mcp_message (sender receiver msg_type : String)
    (payload : Payload) (trace_id : Option String) (supply : Nat) :
    MCPMessage × Nat :=
  match trace_id with
  | some tid =>
      if tid = "" then
        (⟨sender, receiver, msg_type, uuid4 supply, payload⟩, supply + 1)
      else
        (⟨sender, receiver, msg_type, tid, payload⟩, supply)
  | none =>
      (⟨sender, receiver, msg_type, uuid4 supply, payload⟩, supply + 1)

/-- `BaseAgent` state from `src/agents/base_agent.py`: its identity and
its `_callbacks` table mapping a message type to the ordered list of
registered handlers. -/
structure BaseAgent where
  agent_id : String
  callbacks : List (String × List Handler)
deriving Repr

/-- A `BaseAgent` right after `__init__` (which also subscribes its
dispatch function with the broker; that wiring is modelled at the call
sites). -/
def BaseAgent.init (agent_id : String) : BaseAgent := ⟨agent_id, []⟩

/-- `BaseAgent.register_handler`: ensure the message type has an entry
in `_callbacks`, then append the callback to its list. -/
def BaseAgent.register_handler (a : BaseAgent) (message_type : String)
    (callback : Handler) : BaseAgent :=
  let cur :=
    match dictGet a.callbacks message_type with
    | some l => l
    | none => []
  { a with callbacks := dictSet a.callbacks message_type (cur ++ [callback]) }

/-- Outcome of `BaseAgent._handle_message`: which handlers ran, what
warnings were logged, and the exception if a handler raised. -/
structure DispatchResult where
  invoked : List Handler
  warnings : List String
  exc : Option String
deriving Repr

/-- `BaseAgent._handle_message`: if the message type is a key of
`_callbacks`, invoke each registered handler in order; otherwise log a
warning and do nothing else.  Returns the (unchanged) agent together
with the dispatch outcome. -/
def BaseAgent.handle_message (a : BaseAgent) (hbeh : HandlerBehavior)
    (m : MCPMessage) : BaseAgent × DispatchResult :=
  match dictGet a.callbacks m.type with
  | some cbs =>
      let (tr, r) := invokeAll hbeh m cbs
      (a, ⟨tr, [], r⟩)
  | none =>
      (a, ⟨[], ["No handler for message type: " ++ m.type], none⟩)

/-- `BaseAgent.send_message`: build an envelope via `create_mcp_message`
(`sender` is the agent's own id) and publish it on the broker; returns
the broker's result and the advanced uuid supply. -/
def BaseAgent.send_message (a : BaseAgent) (b : MCPBroker)
    (hbeh : HandlerBehavior) (receiver msg_type : String)
    (payload : Payload) (trace_id : Option String) (supply : Nat) :
    (MCPBroker × PublishResult) × Nat :=
  let (message, supply') :=
    create_mcp_message a.agent_id receiver msg_type payload trace_id supply
  (b.publish hbeh message, supply')

/-- Callback behaviour in which every callback returns normally. -/
def allOk : HandlerBehavior := fun _ _ => none

/-- Callback behaviour in which callback `1` raises `"boom"` and every
other callback returns normally. -/
def oneRaises : HandlerBehavior :=
  fun cb _ => if cb = 1 then some "boom" else none

/-- Concrete envelope used in evaluations of the theorems below. -/
def pingMsg : MCPMessage := ⟨"A", "B", "PING", "t", [("n", "1")]⟩

/-- A second concrete envelope with a different trace id. -/
def fwdMsg : MCPMessage := ⟨"B", "C", "FWD", "u", []⟩

/-- A broker holding two published envelopes with distinct trace ids. -/
def twoMsgBroker : MCPBroker :=
  ((MCPBroker.init.publish allOk pingMsg).1.publish allOk fwdMsg).1

/-- A broker with three callbacks subscribed for identity `"B"`. -/
def threeSubBroker : MCPBroker :=
  ((MCPBroker.init.subscribe "B" 0).subscribe "B" 1).subscribe "B" 2

/- ### Helper lemmas -/

theorem invokeAll_ok (hbeh : HandlerBehavior) (m : MCPMessage)
    (cbs : List Handler) (h : ∀ cb ∈ cbs, hbeh cb m = none) :
    invokeAll hbeh m cbs = (cbs, none) := by
  induction cbs with
  | nil => rfl
  | cons c rest ih =>
      have hc : hbeh c m = none := h c (by simp)
      have hrest := ih (fun cb hcb => h cb (by simp [hcb]))
      simp [invokeAll, hc, hrest]

theorem invokeAll_raise (hbeh : HandlerBehavior) (m : MCPMessage)
    (bad : Handler) (e : String) (hbad : hbeh bad m = some e)
    (pre post : List Handler) (h : ∀ cb ∈ pre, hbeh cb m = none) :
    invokeAll hbeh m (pre ++ bad :: post) = (pre ++ [bad], some e) := by
  induction pre with
  | nil => simp [invokeAll, hbad]
  | cons c rest ih =>
      have hc : hbeh c m = none := h c (by simp)
      have hrest := ih (fun cb hcb => h cb (by simp [hcb]))
      simp [invokeAll, hc, hrest]

theorem dictGet_dictSet_same {α : Type} (d : List (String × α))
    (k : String) (v : α) : dictGet (dictSet d k v) k = some v := by
  induction d with
  | nil => simp [dictGet, dictSet]
  | cons p rest ih =>
      obtain ⟨k0, v0⟩ := p
      by_cases h : k0 = k
      · simp [dictGet, dictSet, h]
      · simp [dictGet, dictSet, h, ih]

theorem dictGet_dictSet_ne {α : Type} (d : List (String × α))
    (k k' : String) (v : α) (hne : k' ≠ k) :
    dictGet (dictSet d k v) k' = dictGet d k' := by
  induction d with
  | nil => simp [dictGet, dictSet, Ne.symm hne]
  | cons p rest ih =>
      obtain ⟨k0, v0⟩ := p
      by_cases h : k0 = k
      · subst h
        simp [dictGet, dictSet, Ne.symm hne]
      · simp only [dictSet, if_neg h]
        by_cases h' : k0 = k'
        · simp [dictGet, h']
        · simp [dictGet, h', ih]

theorem publish_fst (b : MCPBroker) (hbeh : HandlerBehavior)
    (m : MCPMessage) :
    (b.publish hbeh m).1 =
      { b with message_history := b.message_history ++ [m] } := by
  unfold MCPBroker.publish
  cases hd : dictGet b.subscribers m.receiver with
  | none => rfl
  | some cbs =>
      rcases hinv : invokeAll hbeh m cbs with ⟨tr, r⟩
      cases r <;> simp [hinv]

theorem subscribe_subscribers (b : MCPBroker) (agent_id : String)
    (cb : Handler) :
    (b.subscribe agent_id cb).subscribers =
      dictSet b.subscribers agent_id
        ((dictGet b.subscribers agent_id).getD [] ++ [cb]) := by
  cases h : dictGet b.subscribers agent_id <;> simp [MCPBroker.subscribe, h]

/- ### Claim theorems -/

/-- C1: for every receiver identity and message type with registered
handlers (broker-level `subscribe` lists and agent-level
`register_handler` lists), publishing a matching envelope invokes
exactly the registered callbacks, once each, in registration order: the
broker's invocation sequence equals the receiver's subscriber list, and
the agent dispatch's invocation sequence equals the handler list
registered for the envelope's type. -/
theorem publish_invokes_all_handlers_in_order (b : MCPBroker)
    (hbeh : HandlerBehavior) (m : MCPMessage) (cbs ks : List Handler)
    (a : BaseAgent)
    (hsub : dictGet b.subscribers m.receiver = some cbs)
    (hok : ∀ cb ∈ cbs, hbeh cb m = none)
    (hreg : dictGet a.callbacks m.type = some ks)
    (hok2 : ∀ cb ∈ ks, hbeh cb m = none) :
    (b.publish hbeh m).2.invoked = cbs ∧
      (a.handle_message hbeh m).2.invoked = ks := by
  constructor
  · simp [MCPBroker.publish, hsub, invokeAll_ok hbeh m cbs hok]
  · simp [BaseAgent.handle_message, hreg, invokeAll_ok hbeh m ks hok2]

theorem publish_invokes_all_handlers_in_order_witness :
    (((MCPBroker.init.subscribe "B" 0).subscribe "B" 1).publish allOk
        pingMsg).2.invoked = [0, 1] ∧
      (((BaseAgent.init "B").register_handler "PING" 5).handle_message
        allOk pingMsg).2.invoked = [5] :=
  publish_invokes_all_handlers_in_order
    ((MCPBroker.init.subscribe "B" 0).subscribe "B" 1) allOk pingMsg
    [0, 1] [5] ((BaseAgent.init "B").register_handler "PING" 5)
    (by decide) (by intro cb _; rfl) (by decide) (by intro cb _; rfl)

/-- C2: every `publish(E)` appends `E` at the end of the message
history, so the history contains `E` exactly once more than before,
with all earlier entries (hence publish-call order) preserved. -/
theorem publish_appends_to_history (b : MCPBroker)
    (hbeh : HandlerBehavior) (m : MCPMessage) :
    (b.publish hbeh m).1.message_history = b.message_history ++ [m] ∧
      ((b.publish hbeh m).1.message_history).count m =
        b.message_history.count m + 1 := by
  have h := congrArg MCPBroker.message_history (publish_fst b hbeh m)
  refine ⟨h, ?_⟩
  rw [h]
  simp

/-- C4: publishing to a receiver with no subscriber entry raises no
exception, invokes no callback, logs only a diagnostic warning, appends
the envelope to the history, and returns the envelope's own trace id. -/
theorem publish_without_subscribers (b : MCPBroker)
    (hbeh : HandlerBehavior) (m : MCPMessage)
    (h : dictGet b.subscribers m.receiver = none) :
    b.publish hbeh m =
      ({ b with message_history := b.message_history ++ [m] },
        ⟨[], ["No subscribers found for receiver " ++ m.receiver],
          .ok m.trace_id⟩) := by
  simp [MCPBroker.publish, h]

theorem publish_without_subscribers_witness :
    MCPBroker.init.publish allOk pingMsg =
      ({ MCPBroker.init with message_history := [pingMsg] },
        ⟨[], ["No subscribers found for receiver B"], .ok "t"⟩) :=
  publish_without_subscribers MCPBroker.init allOk pingMsg rfl

/-- C9: delivering an envelope whose type has no entry in the agent's
handler table logs a warning and does nothing else: no handler is
invoked, no exception is raised, and the agent (its handler table
included) is returned unchanged. -/
theorem handle_message_unmatched_type (a : BaseAgent)
    (hbeh : HandlerBehavior) (m : MCPMessage)
    (h : dictGet a.callbacks m.type = none) :
    a.handle_message hbeh m =
      (a, ⟨[], ["No handler for message type: " ++ m.type], none⟩) := by
  simp [BaseAgent.handle_message, h]

theorem handle_message_unmatched_type_witness :
    (BaseAgent.init "B").handle_message allOk pingMsg =
      (BaseAgent.init "B",
        ⟨[], ["No handler for message type: PING"], none⟩) :=
  handle_message_unmatched_type (BaseAgent.init "B") allOk pingMsg rfl

/-- C10: `subscribe(identity, cb)` leaves the message history and every
other identity's subscriber list unchanged, and `publish` leaves the
whole subscriber table unchanged. -/
theorem subscribe_publish_frame (b : MCPBroker) (agent_id other : String)
    (cb : Handler) (hbeh : HandlerBehavior) (m : MCPMessage)
    (hne : other ≠ agent_id) :
    (b.subscribe agent_id cb).message_history = b.message_history ∧
      dictGet (b.subscribe agent_id cb).subscribers other =
        dictGet b.subscribers other ∧
      (b.publish hbeh m).1.subscribers = b.subscribers := by
  refine ⟨rfl, ?_, ?_⟩
  · rw [subscribe_subscribers]
    exact dictGet_dictSet_ne b.subscribers agent_id other _ hne
  · rw [publish_fst]

theorem subscribe_publish_frame_witness :
    ((MCPBroker.init.subscribe "C" 9).subscribe "B" 0).message_history =
        (MCPBroker.init.subscribe "C" 9).message_history ∧
      dictGet ((MCPBroker.init.subscribe "C" 9).subscribe "B" 0).subscribers
          "C" =
        dictGet (MCPBroker.init.subscribe "C" 9).subscribers "C" ∧
      ((MCPBroker.init.subscribe "C" 9).publish allOk pingMsg).1.subscribers =
        (MCPBroker.init.subscribe "C" 9).subscribers :=
  subscribe_publish_frame (MCPBroker.init.subscribe "C" 9) "B" "C" 0
    allOk pingMsg (by decide)

theorem uuid4_length (n : Nat) : (uuid4 n).length = n + 1 := by
  simp [uuid4, String.length]

theorem uuid4_ne_empty (n : Nat) : uuid4 n ≠ "" := by
  intro h
  have hl := congrArg String.length h
  rw [uuid4_length] at hl
  simp [String.length] at hl

theorem uuid4_injective {n m : Nat} (h : n ≠ m) : uuid4 n ≠ uuid4 m := by
  intro he
  have hl := congrArg String.length he
  rw [uuid4_length, uuid4_length] at hl
  omega

theorem handle_message_fst (a : BaseAgent) (hbeh : HandlerBehavior)
    (m : MCPMessage) : (a.handle_message hbeh m).1 = a := by
  unfold BaseAgent.handle_message
  cases hd : dictGet a.callbacks m.type with
  | none => rfl
  | some cbs =>
      rcases hinv : invokeAll hbeh m cbs with ⟨tr, r⟩
      simp [hinv]

/-- C3 (amended): `send_message` publishes exactly the envelope built by
`create_mcp_message`; with no trace id supplied that envelope carries
the next fresh identifier, which is non-empty and distinct across
distinct draws; a supplied *non-empty* trace id is propagated verbatim.
(A supplied empty string is treated like an absent id: Python's
`if trace_id:` is false for `""`.) -/
theorem create_mcp_message_trace_id_spec (sender receiver msg_type : String)
    (payload : Payload) (n m : Nat) (tid : String) (a : BaseAgent)
    (b : MCPBroker) (hbeh : HandlerBehavior) (t : Option String)
    (supply : Nat) :
    (create_mcp_message sender receiver msg_type payload none n).1.trace_id
        = uuid4 n ∧
      uuid4 n ≠ "" ∧
      (n ≠ m → uuid4 n ≠ uuid4 m) ∧
      (tid ≠ "" →
        (create_mcp_message sender receiver msg_type payload (some tid)
            n).1.trace_id = tid) ∧
      (a.send_message b hbeh receiver msg_type payload t
            supply).1.1.message_history =
        b.message_history ++
          [(create_mcp_message a.agent_id receiver msg_type payload t
              supply).1] := by
  refine ⟨rfl, uuid4_ne_empty n, fun h => uuid4_injective h, ?_, ?_⟩
  · intro h
    simp [create_mcp_message, h]
  · rcases hc : create_mcp_message a.agent_id receiver msg_type payload t
        supply with ⟨msg, s'⟩
    have hp := congrArg MCPBroker.message_history (publish_fst b hbeh msg)
    simp [BaseAgent.send_message, hc, hp]

theorem create_mcp_message_trace_id_spec_witness :
    uuid4 0 ≠ uuid4 1 ∧
      (create_mcp_message "A" "B" "QUERY" [] (some "t") 0).1.trace_id
        = "t" :=
  ⟨(create_mcp_message_trace_id_spec "A" "B" "QUERY" [] 0 1 "t"
      (BaseAgent.init "A") MCPBroker.init allOk (some "t") 0).2.2.1
      (by decide),
    (create_mcp_message_trace_id_spec "A" "B" "QUERY" [] 0 1 "t"
      (BaseAgent.init "A") MCPBroker.init allOk (some "t") 0).2.2.2.1
      (by decide)⟩

/-- C3 counterexample: supplying the empty string as an explicit trace
id does not propagate it verbatim — the created envelope carries a
freshly generated (non-empty) identifier instead, because Python's
`if trace_id:` treats `""` as absent. -/
theorem create_mcp_message_empty_trace_counterexample :
    (create_mcp_message "A" "B" "QUERY" [] (some "") 0).1.trace_id ≠ ""
      ∧ (create_mcp_message "A" "B" "QUERY" [] (some "") 0).1.trace_id
        = uuid4 0 := by
  exact ⟨by decide, rfl⟩

/-- C5 (amended): filtering history by a *non-empty* trace id returns
exactly the recorded envelopes with that trace id, in recorded (publish)
order; querying with no filter returns the whole history.  (Filtering
by the empty string returns the whole history instead, because Python's
`if trace_id:` is false for `""`.) -/
theorem get_message_history_filter_spec (b : MCPBroker) (tid : String)
    (h : tid ≠ "") :
    b.get_message_history (some tid) =
        b.message_history.filter (fun msg => msg.trace_id = tid) ∧
      b.get_message_history none = b.message_history :=
  ⟨by simp [MCPBroker.get_message_history, h], rfl⟩

theorem get_message_history_filter_spec_witness :
    twoMsgBroker.get_message_history (some "t") = [pingMsg] ∧
      twoMsgBroker.get_message_history (some "t") =
        twoMsgBroker.message_history.filter
          (fun msg => msg.trace_id = "t") :=
  ⟨rfl, (get_message_history_filter_spec twoMsgBroker "t" (by decide)).1⟩

/-- C5 counterexample: filtering by the empty-string trace id returns
the entire history, including envelopes whose trace id is not `""` —
not the subset with that trace id (which here is empty). -/
theorem get_message_history_empty_filter_counterexample :
    pingMsg.trace_id ≠ "" ∧
      twoMsgBroker.get_message_history (some "") = [pingMsg, fwdMsg] ∧
      twoMsgBroker.message_history.filter (fun msg => msg.trace_id = "")
        = [] :=
  ⟨by decide, rfl, rfl⟩

/-- C6: if the receiver's subscriber list is `pre ++ bad :: post`, every
callback in `pre` returns normally and `bad` raises `e`, then `publish`
propagates the exception `e`, invokes exactly `pre ++ [bad]` (none of
`post`), and the envelope is nevertheless appended to the history, the
append having happened before dispatch. -/
theorem publish_handler_exception_propagates (b : MCPBroker)
    (hbeh : HandlerBehavior) (m : MCPMessage) (pre post : List Handler)
    (bad : Handler) (e : String)
    (hsub : dictGet b.subscribers m.receiver = some (pre ++ bad :: post))
    (hok : ∀ cb ∈ pre, hbeh cb m = none)
    (hbad : hbeh bad m = some e) :
    b.publish hbeh m =
      ({ b with message_history := b.message_history ++ [m] },
        ⟨pre ++ [bad], [], .error e⟩) := by
  simp [MCPBroker.publish, hsub,
    invokeAll_raise hbeh m bad e hbad pre post hok]

theorem publish_handler_exception_propagates_witness :
    threeSubBroker.publish oneRaises pingMsg =
      ({ threeSubBroker with
          message_history := threeSubBroker.message_history ++ [pingMsg] },
        ⟨[0] ++ [1], [], .error "boom"⟩) :=
  publish_handler_exception_propagates threeSubBroker oneRaises pingMsg
    [0] [2] 1 "boom" (by decide) (by decide) rfl

/-- C7: envelopes are immutable: the frozen-model setter never yields an
updated envelope, and no broker or agent operation alters an envelope
already recorded — `publish` and `subscribe` keep every recorded
envelope at its position with identical fields, and agent dispatch
returns the agent's state unchanged. -/
theorem envelope_fields_immutable (m : MCPMessage) (field value : String)
    (b : MCPBroker) (hbeh : HandlerBehavior) (msg : MCPMessage)
    (agent_id : String) (cb : Handler) (a : BaseAgent) (i : Nat)
    (x : MCPMessage) (hx : b.message_history[i]? = some x) :
    (∀ m', MCPMessage.setattr m field value ≠ .ok m') ∧
      (b.publish hbeh msg).1.message_history[i]? = some x ∧
      (b.subscribe agent_id cb).message_history[i]? = some x ∧
      (a.handle_message hbeh msg).1 = a := by
  refine ⟨?_, ?_, hx, handle_message_fst a hbeh msg⟩
  · intro m'
    simp [MCPMessage.setattr]
  · have hlen : i < b.message_history.length :=
      (List.getElem?_eq_some.mp hx).1
    have hp := congrArg MCPBroker.message_history (publish_fst b hbeh msg)
    rw [hp]
    show (b.message_history ++ [msg])[i]? = some x
    rw [List.getElem?_append, if_pos hlen, hx]

theorem envelope_fields_immutable_witness :
    (twoMsgBroker.publish allOk fwdMsg).1.message_history[0]? =
        some pingMsg ∧
      (twoMsgBroker.subscribe "B" 0).message_history[0]? = some pingMsg :=
  ⟨(envelope_fields_immutable pingMsg "sender" "Z" twoMsgBroker allOk
      fwdMsg "B" 0 (BaseAgent.init "B") 0 pingMsg rfl).2.1,
    (envelope_fields_immutable pingMsg "sender" "Z" twoMsgBroker allOk
      fwdMsg "B" 0 (BaseAgent.init "B") 0 pingMsg rfl).2.2.1⟩

/-- C8: subscribing the same (identity, callback) pair twice appends two
entries to that identity's subscriber list — no uniqueness check — so a
subsequent publish addressed to that identity invokes the callback twice
more than its prior multiplicity. -/
theorem subscribe_duplicate_invocation (b : MCPBroker)
    (hbeh : HandlerBehavior) (agent_id : String) (cb : Handler)
    (m : MCPMessage) (old : List Handler)
    (hold : (dictGet b.subscribers agent_id).getD [] = old)
    (hrecv : m.receiver = agent_id)
    (hok : ∀ c ∈ old ++ [cb, cb], hbeh c m = none) :
    dictGet ((b.subscribe agent_id cb).subscribe agent_id cb).subscribers
        agent_id = some (old ++ [cb, cb]) ∧
      (((b.subscribe agent_id cb).subscribe agent_id cb).publish hbeh
          m).2.invoked = old ++ [cb, cb] ∧
      (((b.subscribe agent_id cb).subscribe agent_id cb).publish hbeh
          m).2.invoked.count cb = old.count cb + 2 := by
  have h1 : dictGet (b.subscribe agent_id cb).subscribers agent_id =
      some (old ++ [cb]) := by
    rw [subscribe_subscribers, hold]
    exact dictGet_dictSet_same _ _ _
  have h2 : dictGet ((b.subscribe agent_id cb).subscribe agent_id
      cb).subscribers agent_id = some (old ++ [cb, cb]) := by
    rw [subscribe_subscribers (b.subscribe agent_id cb), h1]
    simpa using dictGet_dictSet_same
      (b.subscribe agent_id cb).subscribers agent_id (old ++ [cb] ++ [cb])
  have hsub : dictGet ((b.subscribe agent_id cb).subscribe agent_id
      cb).subscribers m.receiver = some (old ++ [cb, cb]) := by
    rw [hrecv]; exact h2
  have hinv : (((b.subscribe agent_id cb).subscribe agent_id cb).publish
      hbeh m).2.invoked = old ++ [cb, cb] := by
    simp [MCPBroker.publish, hsub,
      invokeAll_ok hbeh m (old ++ [cb, cb]) hok]
  refine ⟨h2, hinv, ?_⟩
  rw [hinv]
  simp [List.count_append]

theorem subscribe_duplicate_invocation_witness :
    dictGet ((MCPBroker.init.subscribe "B" 7).subscribe "B"
        7).subscribers "B" = some ([] ++ [7, 7]) ∧
      (((MCPBroker.init.subscribe "B" 7).subscribe "B" 7).publish allOk
          pingMsg).2.invoked = [] ++ [7, 7] ∧
      (((MCPBroker.init.subscribe "B" 7).subscribe "B" 7).publish allOk
          pingMsg).2.invoked.count 7 = List.count 7 [] + 2 :=
  subscribe_duplicate_invocation MCPBroker.init allOk "B" 7 pingMsg []
    rfl rfl (by decide)
